import Mathlib

/-!
Verification of the callme deferred-callback scheduler (github.com/marcoalmeida/callme).

This file shallowly embeds the Go source into Lean:
* `src/task/task.go`    — task domain object, validation, normalization, callback executor
* `src/handlers/handlers.go` — `parseTriggerAt`
* `src/util/util.go`    — `Backoff`, `SendHTTPRequest`
* `src/app/app.go`      — `Reschedule`
* `src/unnamed/part_005` (an alternate revision of the task package) — `NormalizeTriggerAt`,
  `setDefaults`

Machine integers (Go `int`/`int64` on a 64-bit platform) are modelled as `Int` with explicit
wrap-around (`i64wrap`) at the operations where overflow can occur.  Go byte strings are
modelled as Lean `String`s (character = byte; all inputs exercised here are ASCII).
-/

set_option autoImplicit false
set_option maxRecDepth 8000

namespace Callme

/-- `Except.ok` is a nil error. -/
@[simp] theorem except_isOk_ok {ε α : Type} (a : α) : (Except.ok a : Except ε α).isOk = true :=
  rfl

/-- `Except.error` is a non-nil error. -/
@[simp] theorem except_isOk_error {ε α : Type} (e : ε) :
    (Except.error e : Except ε α).isOk = false :=
  rfl

/-- Wrap-around of 64-bit two's-complement arithmetic: the unique representative of `x`
modulo `2^64` lying in `[-2^63, 2^63)`. -/
def i64wrap (x : Int) : Int := (x + 2 ^ 63) % 2 ^ 64 - 2 ^ 63

/-- Go `int64` addition (wraps on overflow). -/
def i64add (a b : Int) : Int := i64wrap (a + b)

/-- Go `int64` multiplication (wraps on overflow). -/
def i64mul (a b : Int) : Int := i64wrap (a * b)

/-- Numeric value of a list of decimal digit characters (most significant first). -/
def digitsToNat (ds : List Char) : Nat := ds.foldl (fun a c => a * 10 + (c.toNat - 48)) 0

/-- Go `strconv.Atoi` (= `ParseInt(s, 10, 64)` on a 64-bit platform), success case only:
`some v` iff the string is an optional sign followed by a non-empty run of decimal digits
whose value fits in `int64`; `none` models a non-nil error (syntax or range). -/
def goAtoi (s : String) : Option Int :=
  match s.data with
  | [] => none
  | c :: cs =>
    let p : Bool × List Char :=
      if c = '+' then (false, cs) else if c = '-' then (true, cs) else (false, c :: cs)
    if p.2.isEmpty || !p.2.all Char.isDigit then none
    else
      let n := digitsToNat p.2
      if p.1 then
        if n ≤ 2 ^ 63 then some (-(n : Int)) else none
      else
        if n ≤ 2 ^ 63 - 1 then some (n : Int) else none

/-- The integer value Go `strconv.Atoi` returns together with its error: `0` on a syntax
error, the clamped extremal `int64` on a range error, the parsed value otherwise.  Used
where the Go code discards the error (`v, _ := strconv.Atoi(s)`). -/
def goAtoiVal (s : String) : Int :=
  match s.data with
  | [] => 0
  | c :: cs =>
    let p : Bool × List Char :=
      if c = '+' then (false, cs) else if c = '-' then (true, cs) else (false, c :: cs)
    if p.2.isEmpty || !p.2.all Char.isDigit then 0
    else
      let n := digitsToNat p.2
      if p.1 then
        if n ≤ 2 ^ 63 then -(n : Int) else -(2 ^ 63)
      else
        if n ≤ 2 ^ 63 - 1 then (n : Int) else 2 ^ 63 - 1

/-! ## Task domain object (src/task/task.go) -/

/-- Task state constant `Pending` (task.go line 19). -/
def Pending : String := "pending"

/-- Task state constant `Running` (task.go line 20). -/
def Running : String := "running"

/-- Task state constant `Successful` (task.go line 21). -/
def Successful : String := "successful"

/-- Task state constant `Failed` (task.go line 22). -/
def Failed : String := "failed"

/-- Task state constant `Skipped` (task.go line 23). -/
def Skipped : String := "skipped"

/-- Maximum number of response bytes stored (`maxResponseBytes`, task.go line 29). -/
def maxResponseBytes : Nat := 256

/-- The `Task` struct of src/task/task.go (the `tag`-keyed revision).  Field defaults are
the Go zero values, so `{}` is Go's `Task{}`. -/
structure Task where
  TriggerAt : String := ""
  Tag : String := ""
  Payload : String := ""
  CallbackEndpoint : String := ""
  CallbackMethod : String := ""
  Retry : Int := 0
  ExpectedHTTPStatus : Int := 0
  MaxDelay : Int := 0
  TaskState : String := ""
  ResponseBody : String := ""
  ResponseStatus : Int := 0
  ExecutedAt : String := ""
  deriving Repr, DecidableEq

/-- `(*Task).setDefaults` (task.go lines 199-222; byte-identical in part_005 lines
231-254): unconditionally reset the state to pending and replace zero-valued optional
fields with their defaults. -/
def setDefaults (t : Task) : Task :=
  let t0 := { t with TaskState := Pending }
  let t1 := if t0.CallbackMethod = "" then { t0 with CallbackMethod := "GET" } else t0
  let t2 := if t1.Retry = 0 then { t1 with Retry := 1 } else t1
  let t3 := if t2.ExpectedHTTPStatus = 0 then { t2 with ExpectedHTTPStatus := 200 } else t2
  if t3.MaxDelay = 0 then { t3 with MaxDelay := 10 } else t3

/-- C10: `setDefaults` cannot distinguish an explicitly supplied zero from an unset field:
a zero `retry`, `expected_http_status`, or `max_delay` is replaced by 1, 200, and 10
respectively (so the resulting retry and max-delay are never zero), and `task_state` is
unconditionally reset to `pending` regardless of its prior value. -/
theorem setDefaults_spec (t : Task) :
    (setDefaults t).TaskState = Pending
    ∧ (setDefaults t).Retry = (if t.Retry = 0 then 1 else t.Retry)
    ∧ (setDefaults t).ExpectedHTTPStatus =
        (if t.ExpectedHTTPStatus = 0 then 200 else t.ExpectedHTTPStatus)
    ∧ (setDefaults t).MaxDelay = (if t.MaxDelay = 0 then 10 else t.MaxDelay)
    ∧ (setDefaults t).Retry ≠ 0
    ∧ (setDefaults t).MaxDelay ≠ 0 := by
  unfold setDefaults
  dsimp only
  by_cases h1 : t.CallbackMethod = "" <;> by_cases h2 : t.Retry = 0 <;>
    by_cases h3 : t.ExpectedHTTPStatus = 0 <;> by_cases h4 : t.MaxDelay = 0 <;>
    simp [h1, h2, h3, h4]

/-! ## Regular-expression models

`reValidTriggerAt = [+]([0-9]+)([mhd])` and `reValidTag = [a-zA-Z0-9]*` (task.go lines
35-36).  Both are used through Go search functions (`FindStringSubmatch`,
`FindAllString`), whose semantics are modelled below specialized to these two patterns.
-/

/-- Character class `[mhd]`. -/
def isTimeSpec (c : Char) : Bool := c = 'm' || c = 'h' || c = 'd'

/-- Character class `[a-zA-Z0-9]`. -/
def isAlnum (c : Char) : Bool :=
  ('a' ≤ c && c ≤ 'z') || ('A' ≤ c && c ≤ 'Z') || ('0' ≤ c && c ≤ '9')

/-- Go `reValidTriggerAt.FindStringSubmatch`: leftmost (unanchored) match of
`[+]([0-9]+)([mhd])`, returning the two submatches (the digit run and the unit
character); `none` when the string contains no match.  At a given start position a match
exists iff the position holds `+`, followed by a non-empty maximal digit run, followed by
one of `m`, `h`, `d` (greedy `[0-9]+` cannot give back digits to `[mhd]`). -/
def findRel : List Char → Option (List Char × Char)
  | [] => none
  | c :: cs =>
    if c = '+' then
      let ds := cs.takeWhile Char.isDigit
      if ds.isEmpty then findRel cs
      else
        match (cs.dropWhile Char.isDigit).head? with
        | some r => if isTimeSpec r then some (ds, r) else findRel cs
        | none => findRel cs
    else findRel cs

/-- Scanner mode for `countMatches`: `scan adj` means the scanner is between matches
(`adj` records whether the previous match ended exactly at the current position, in which
case an empty match here is discarded); `run` means the scanner is inside a non-empty
alphanumeric match that has already been counted. -/
inductive MatchMode where
  | scan (adj : Bool)
  | run
  deriving Repr, DecidableEq

/-- Number of matches Go `reValidTag.FindAllString(s, -1)` returns for the pattern
`[a-zA-Z0-9]*`, as a character-level automaton.  Mirrors `regexp.allMatches`: at each
position the leftmost match starts there (the pattern is nullable) and greedily takes the
maximal alphanumeric run; an empty match immediately following the end of the previous
match is discarded and the scan advances one character; a non-empty match advances past
itself and suppresses the empty match at its end.  The entry point is mode
`.scan false` (`prevMatchEnd = -1`). -/
def countMatches : List Char → MatchMode → Nat
  | [], .scan adj => if adj then 0 else 1
  | [], .run => 0
  | c :: cs, .scan adj =>
    if isAlnum c then 1 + countMatches cs .run
    else (if adj then 0 else 1) + countMatches cs (.scan false)
  | c :: cs, .run =>
    if isAlnum c then countMatches cs .run
    else countMatches cs (.scan false)

/-! ## Validation (src/task/task.go) -/

/-- `isValidTriggerAt` (task.go lines 71-108): `.ok ()` models a nil error.  `now` is the
value of `util.GetUnixMinute()` at call time. -/
def isValidTriggerAt (now : Int) (ts : String) : Except String Unit :=
  if ts.length < 3 then .error "invalid time specification"
  else
    match ts.data with
    | [] => .error "invalid time specification"
    | c :: _ =>
      if c = '+' then
        match findRel ts.data with
        | some _ => .ok ()
        | none => .error "relative time specification does not match [+]([0-9]+)([mhd])"
      else
        match goAtoi ts with
        | none => .error "invalid Unix timestamp"
        | some v =>
          if Int.tmod v 60 ≠ 0 then .error "timestamp must be on 1-minute resolution"
          else if v ≤ now then .error "timestamp must be in the future"
          else .ok ()

/-- `isValidTag` (task.go lines 111-117): valid iff `FindAllString` returns exactly one
match of `[a-zA-Z0-9]*`. -/
def isValidTag (tag : String) : Except String Unit :=
  if countMatches tag.data (.scan false) ≠ 1 then
    .error "invalid tag: does not match [a-zA-Z0-9]*"
  else .ok ()

/-! ### Characterization of `countMatches` -/

/-- Inside a counted run, a fully alphanumeric remainder contributes no further match. -/
theorem countMatches_run_of_all {l : List Char} (h : ∀ c ∈ l, isAlnum c = true) :
    countMatches l .run = 0 := by
  induction l with
  | nil => rfl
  | cons c cs ih =>
    have hc : isAlnum c = true := h c (List.mem_cons_self c cs)
    simp only [countMatches, if_pos hc]
    exact ih fun x hx => h x (List.mem_cons_of_mem _ hx)

/-- A fully alphanumeric string yields exactly one match. -/
theorem countMatches_eq_one_of_all {l : List Char} (h : ∀ c ∈ l, isAlnum c = true) :
    countMatches l (.scan false) = 1 := by
  cases l with
  | nil => rfl
  | cons c cs =>
    have hc : isAlnum c = true := h c (List.mem_cons_self c cs)
    simp only [countMatches, if_pos hc]
    rw [countMatches_run_of_all fun x hx => h x (List.mem_cons_of_mem _ hx)]

/-- Scanning from a non-adjacent position always yields at least one match (possibly the
empty one). -/
theorem countMatches_scan_pos (l : List Char) : 1 ≤ countMatches l (.scan false) := by
  induction l with
  | nil => simp [countMatches]
  | cons c cs ih =>
    by_cases hc : isAlnum c = true
    · simp [countMatches, hc]
    · simp only [countMatches, if_neg hc, Bool.false_eq_true, if_false]
      omega

/-- Inside a counted run, a non-alphanumeric character further on produces at least one
more match. -/
theorem countMatches_run_pos_of_bad {l : List Char} (h : ∃ c ∈ l, ¬ isAlnum c = true) :
    1 ≤ countMatches l .run := by
  induction l with
  | nil => simp at h
  | cons c cs ih =>
    by_cases hc : isAlnum c = true
    · have hcs : ∃ x ∈ cs, ¬ isAlnum x = true := by
        obtain ⟨x, hx, hbad⟩ := h
        rcases List.mem_cons.mp hx with rfl | hx'
        · exact absurd hc hbad
        · exact ⟨x, hx', hbad⟩
      simp only [countMatches, if_pos hc]
      exact ih hcs
    · simp only [countMatches, if_neg hc]
      exact countMatches_scan_pos cs

/-- A string containing a non-alphanumeric character yields at least two matches. -/
theorem countMatches_two_le_of_bad {l : List Char} (h : ∃ c ∈ l, ¬ isAlnum c = true) :
    2 ≤ countMatches l (.scan false) := by
  cases l with
  | nil => simp at h
  | cons c cs =>
    by_cases hc : isAlnum c = true
    · have hcs : ∃ x ∈ cs, ¬ isAlnum x = true := by
        obtain ⟨x, hx, hbad⟩ := h
        rcases List.mem_cons.mp hx with rfl | hx'
        · exact absurd hc hbad
        · exact ⟨x, hx', hbad⟩
      simp only [countMatches, if_pos hc]
      have := countMatches_run_pos_of_bad hcs
      omega
    · simp only [countMatches, if_neg hc, Bool.false_eq_true, if_false]
      have := countMatches_scan_pos cs
      omega

/-- C7: `isValidTag` accepts a tag string if and only if every one of its characters is
in `[A-Za-z0-9]`; the empty string is accepted, and strings containing a character
outside that set (such as `-`, `@`, `+`, `[`, `]`) are rejected. -/
theorem isValidTag_spec :
    (∀ tag : String, ((isValidTag tag).isOk = true ↔ ∀ c ∈ tag.data, isAlnum c = true))
    ∧ (isValidTag "").isOk = true
    ∧ (isValidTag "a-b").isOk = false
    ∧ (isValidTag "a@b").isOk = false
    ∧ (isValidTag "a+b").isOk = false
    ∧ (isValidTag "[]").isOk = false := by
  refine ⟨?_, by decide, by decide, by decide, by decide, by decide⟩
  intro tag
  unfold isValidTag
  by_cases hcnt : countMatches tag.data (.scan false) = 1
  · simp only [hcnt, ne_eq, not_true_eq_false, if_false, except_isOk_ok, true_iff]
    by_contra hno
    push_neg at hno
    have h2 := countMatches_two_le_of_bad hno
    omega
  · simp only [hcnt, ne_eq, not_false_eq_true, if_true, except_isOk_error,
      Bool.false_eq_true, false_iff]
    intro hall
    exact hcnt (countMatches_eq_one_of_all hall)

/-- Witness for C7 at a concrete tag. -/
theorem isValidTag_spec_witness : (isValidTag "callme01").isOk = true :=
  (isValidTag_spec.1 "callme01").mpr (by decide)

/-- C6: trigger-time validation returns an error exactly when the string is shorter than
3 characters; or it begins with `+` and contains no match of the (unanchored) pattern
`[+]([0-9]+)([mhd])`; or it is an absolute value that `strconv.Atoi` cannot parse, or is
not a multiple of 60, or is not strictly greater than the current minute.  Every other
input is accepted. -/
theorem isValidTriggerAt_spec (now : Int) (ts : String) :
    (isValidTriggerAt now ts).isOk = false ↔
      (ts.length < 3
        ∨ (¬ ts.length < 3 ∧ ts.data.head? = some '+' ∧ findRel ts.data = none)
        ∨ (¬ ts.length < 3 ∧ ts.data.head? ≠ some '+' ∧
            (goAtoi ts = none ∨ ∃ v, goAtoi ts = some v ∧ (¬ (60 : Int) ∣ v ∨ v ≤ now)))) := by
  unfold isValidTriggerAt
  by_cases hlen : ts.length < 3
  · simp [hlen]
  · rw [if_neg hlen]
    cases hd : ts.data with
    | nil =>
      exfalso
      apply hlen
      have hlen0 : ts.length = ts.data.length := rfl
      rw [hd] at hlen0
      simp only [List.length_nil] at hlen0
      omega
    | cons c cs =>
      by_cases hc : c = '+'
      · subst hc
        cases hfr : findRel ('+' :: cs) with
        | some p => simp [hd, hfr, hlen]
        | none => simp [hd, hfr, hlen]
      · cases hA : goAtoi ts with
        | none => simp [hd, hA, hlen, hc]
        | some v =>
          by_cases h60 : Int.tmod v 60 = 0
          · by_cases hnow : v ≤ now
            · simp [hd, hA, hlen, hc, h60, hnow]
            · simp [hd, hA, hlen, hc, h60, hnow,
                Int.dvd_iff_tmod_eq_zero]
          · simp [hd, hA, hlen, hc, h60,
              Int.dvd_iff_tmod_eq_zero]

/-- Witness for C6 at concrete inputs: `+6z` is rejected (no pattern match). -/
theorem isValidTriggerAt_spec_witness : (isValidTriggerAt 0 "+6z").isOk = false :=
  (isValidTriggerAt_spec 0 "+6z").mpr (Or.inr (Or.inl ⟨by decide, by decide, by decide⟩))

/-! ## Trigger-time normalization -/

/-- The `int64` value `strconv.Atoi` yields for the digit-only submatch `parts[1]` when
its error is discarded: the parsed value, clamped to `maxInt64` on a range error. -/
def atoiDigitsVal (ds : List Char) : Int :=
  if (digitsToNat ds : Int) ≤ 2 ^ 63 - 1 then (digitsToNat ds : Int) else 2 ^ 63 - 1

/-- `(*Task).NormalizeTriggerAt` (task.go lines 121-141), modelled as the new value of
the `.TriggerAt` field for a given current minute `now`.  `none` models the run-time
panic the Go code hits (indexing `parts` or the string) when the input is not a valid
trigger spec; the function is documented to be called only after `isValidTriggerAt`. -/
def NormalizeTriggerAt (now : Int) (triggerAt : String) : Option String :=
  match triggerAt.data with
  | [] => none
  | c :: _ =>
    if c ≠ '+' then some triggerAt
    else
      match findRel triggerAt.data with
      | none => none
      | some (ds, spec) =>
        let inputTime := atoiDigitsVal ds
        if spec = 'm' then some (toString (i64add now (i64mul inputTime 60)))
        else if spec = 'h' then some (toString (i64add now (i64mul inputTime 3600)))
        else if spec = 'd' then
          some (toString (i64add now (i64mul (i64mul inputTime 60) 86400)))
        else some triggerAt

namespace Handlers

/-- `parseTriggerAt` (handlers.go lines 301-354): validate and normalize a trigger
specification, returning the normalized Unix-timestamp string. -/
def parseTriggerAt (now : Int) (input : String) : Except String String :=
  if input.length < 3 then .error ("invalid format for trigger_at: " ++ input)
  else
    match input.data with
    | [] => .error ("invalid format for trigger_at: " ++ input)
    | c :: _ =>
      if c = '+' then
        match findRel input.data with
        | none => .error "invalid relative time specification"
        | some (ds, spec) =>
          if (digitsToNat ds : Int) ≤ 2 ^ 63 - 1 then
            let inputTime : Int := (digitsToNat ds : Int)
            if spec = 'm' then .ok (toString (i64add now (i64mul inputTime 60)))
            else if spec = 'h' then .ok (toString (i64add now (i64mul inputTime 3600)))
            else if spec = 'd' then
              .ok (toString (i64add now (i64mul (i64mul inputTime 60) 86400)))
            else .error "unknown relative time specifier"
          else .error "invalid integer in relative time specification"
      else
        match goAtoi input with
        | none => .error ("invalid Unix time stamp: " ++ input)
        | some v =>
          if Int.tmod v 60 ≠ 0 then .error "trigger_at must be on 1-minute resolution"
          else if v ≤ now then .error "trigger_at must be in the future"
          else .ok input

end Handlers

namespace Part005

/-- `(*Task).NormalizeTriggerAt` of the part_005 revision of the task package (lines
127-180), modelled as the new value of `.TriggerAt`; `.error` is the non-nil error
return.  On an absolute timestamp the field is left unchanged. -/
def NormalizeTriggerAt (now : Int) (triggerAt : String) : Except String String :=
  if triggerAt.length < 3 then .error "invalid time specification"
  else
    match triggerAt.data with
    | [] => .error "invalid time specification"
    | c :: _ =>
      if c = '+' then
        match findRel triggerAt.data with
        | none => .error "relative time specification does not match [+]([0-9]+)([mhd])"
        | some (ds, spec) =>
          if (digitsToNat ds : Int) ≤ 2 ^ 63 - 1 then
            let inputTime : Int := (digitsToNat ds : Int)
            if spec = 'm' then .ok (toString (i64add now (i64mul inputTime 60)))
            else if spec = 'h' then .ok (toString (i64add now (i64mul inputTime 3600)))
            else if spec = 'd' then .ok (toString (i64add now (i64mul inputTime 86400)))
            else .error "invalid relative time specifier"
          else .error "value out of range"
      else
        match goAtoi triggerAt with
        | none => .error "invalid Unix timestamp"
        | some v =>
          if Int.tmod v 60 ≠ 0 then .error "timestamp must be on 1-minute resolution"
          else if v ≤ now then .error "timestamp must be in the future"
          else .ok triggerAt

end Part005

/-- C1: evaluation of the day-unit branch at the failing input `+1d` (current minute
normalized to `0`).  task.go's `NormalizeTriggerAt` and handlers.go's `parseTriggerAt`
rewrite `+1d` to `now + 5184000` (= `1*60*86400`, sixty days), while the claim — and the
part_005 revision of the same function, together with `TestTask_NormalizeTriggerAt`,
which expects `+1d` to equal `now + 86400` — prescribe `now + N*86400`.  The minute and
hour branches agree with the claim. -/
theorem normalizeTriggerAt_day_divergence :
    NormalizeTriggerAt 0 "+1d" = some "5184000"
    ∧ Handlers.parseTriggerAt 0 "+1d" = .ok "5184000"
    ∧ Part005.NormalizeTriggerAt 0 "+1d" = .ok "86400"
    ∧ NormalizeTriggerAt 0 "+1m" = some "60"
    ∧ NormalizeTriggerAt 0 "+1h" = some "3600"
    ∧ (5184000 : Int) ≠ 86400 :=
  ⟨rfl, rfl, rfl, rfl, rfl, by decide⟩

/-! ## Backoff (src/util/util.go, `Backoff`, lines 45-64) -/

/-- `2 << (uint64(i) - 1)` for `i > 0`, and the initial value 1 for `i = 0`, as a Go
`int64`: shifting `2` left by `i-1` produces the bit pattern of `2^i mod 2^64`. -/
def backoffShift (i : Nat) : Int := if i = 0 then 1 else i64wrap (2 ^ i)

/-- `wait *= 100` (int64). -/
def backoffWait (i : Nat) : Int := i64mul (backoffShift i) 100

/-- `min := wait / 2` — Go integer division truncates toward zero. -/
def backoffMin (i : Nat) : Int := Int.tdiv (backoffWait i) 2

/-- The argument `wait - min` passed to `rand.Int63n`.  A draw exists iff it is
positive (`Int63n` panics on a non-positive argument); a draw is any `r` with
`0 ≤ r < backoffSpan i`. -/
def backoffSpan (i : Nat) : Int := backoffWait i - backoffMin i

/-- The slept duration in milliseconds: `rand.Int63n(wait-min) + min` for draw `r`. -/
def backoffSleep (i : Nat) (r : Int) : Int := r + backoffMin i

/-- C8 counterexample: at retry index `i = 59` the `int64` computation of
`wait = (2 << 58) * 100` overflows and wraps to `2^61`, so the draw `r = 0` is possible
(`wait - min = 2^60 > 0`) yet the slept duration `2^60` ms lies below the claimed lower
bound `50 * 2^59` ms. -/
theorem backoff_claim_counterexample :
    (0 : Int) ≤ 0 ∧ (0 : Int) < backoffSpan 59 ∧ backoffSleep 59 0 < 50 * 2 ^ 59 := by
  refine ⟨le_refl 0, by decide, by decide⟩

/-- `i64wrap` is the identity on values already in the `int64` range. -/
theorem i64wrap_eq_self {x : Int} (h1 : -(2 ^ 63) ≤ x) (h2 : x < 2 ^ 63) : i64wrap x = x := by
  unfold i64wrap
  rw [Int.emod_eq_of_lt (by omega) (by omega)]
  omega

/-- C8 amended: for every retry index `0 ≤ i ≤ 56` (the range in which
`100 * 2^i` fits in an `int64`) and every possible jitter draw, the sleep duration
computed by `Backoff(i)` is `w` milliseconds with `50*2^i ≤ w < 100*2^i`; for larger
indices the `int64` computation overflows. -/
theorem backoff_bounds (i : Nat) (r : Int) (hi : i ≤ 56) (h0 : 0 ≤ r)
    (hr : r < backoffSpan i) :
    50 * 2 ^ i ≤ backoffSleep i r ∧ backoffSleep i r < 100 * 2 ^ i := by
  have hpow : (2 : Int) ^ i ≤ 2 ^ 56 := pow_le_pow_right₀ (by omega) hi
  have hpos : (0 : Int) < 2 ^ i := pow_pos (by omega) i
  have hlow : (-(2 ^ 63) : Int) ≤ 0 := by norm_num
  have hshift : backoffShift i = 2 ^ i := by
    unfold backoffShift
    rcases Nat.eq_zero_or_pos i with h | h
    · simp [h]
    · rw [if_neg (by omega)]
      exact i64wrap_eq_self (le_trans hlow hpos.le) (lt_of_le_of_lt hpow (by norm_num))
  have hwait : backoffWait i = 2 ^ i * 100 := by
    unfold backoffWait i64mul
    rw [hshift]
    have hmul : (2 : Int) ^ i * 100 ≤ 2 ^ 56 * 100 :=
      mul_le_mul_of_nonneg_right hpow (by norm_num)
    exact i64wrap_eq_self (le_trans hlow (by positivity)) (lt_of_le_of_lt hmul (by norm_num))
  have hmin : backoffMin i = 2 ^ i * 50 := by
    unfold backoffMin
    rw [hwait]
    have : (2 : Int) ^ i * 100 = 2 ^ i * 50 * 2 := by ring
    rw [this, Int.mul_tdiv_cancel _ (by omega)]
  have hspan : backoffSpan i = 2 ^ i * 50 := by
    unfold backoffSpan
    rw [hwait, hmin]
    ring
  rw [hspan] at hr
  unfold backoffSleep
  rw [hmin]
  constructor <;> nlinarith

/-- Witness for the amended C8 bound at `i = 3`, draw `r = 7`. -/
theorem backoff_bounds_witness :
    50 * 2 ^ 3 ≤ backoffSleep 3 7 ∧ backoffSleep 3 7 < 100 * 2 ^ 3 :=
  backoff_bounds 3 7 (by decide) (by decide) (by decide)

/-! ## Retry transport (src/util/util.go, `SendHTTPRequest`, lines 82-158)

The network is modelled by a function `outcomes : Nat → Outcome` giving, for each attempt
index, either a transport-level failure of `client.Do` (the `err` case, carrying
`err.Error()`) or a response with its status and fully-read body (body reads are modelled
as succeeding). -/

/-- One attempt's outcome at the transport layer. -/
inductive Outcome where
  | err (msg : String)
  | resp (status : Int) (body : String)
  deriving Repr, DecidableEq

/-- The variables of the Go function that persist across loop iterations: `status`
(initialized 0), `body` (initialized nil) and `err` (initialized nil). -/
structure SendState where
  status : Int
  body : String
  errMsg : Option String
  deriving Repr, DecidableEq

/-- The pair `SendHTTPRequest` returns, together with the number of attempts that were
started (loop iterations executed). -/
structure SendResult where
  status : Int
  body : String
  attempts : Nat
  deriving Repr, DecidableEq

/-- The code after the loop (util.go lines 153-157): if the last attempt left a non-nil
`err`, return `(status, err.Error())`, else `(status, body)`. -/
def sendFinish (st : SendState) (attempts : Nat) : SendResult :=
  match st.errMsg with
  | some m => ⟨st.status, m, attempts⟩
  | none => ⟨st.status, st.body, attempts⟩

/-- The retry loop (util.go lines 98-149), structurally recursing on the remaining
number of iterations (`fuel = maxRetries - i`).  `i` is the Go loop counter. -/
def sendLoop (outcomes : Nat → Outcome) (expected : Int) :
    Nat → Nat → SendState → SendResult
  | i, 0, st => sendFinish st i
  | i, fuel + 1, st =>
    match outcomes i with
    | .err m => sendLoop outcomes expected (i + 1) fuel { st with errMsg := some m }
    | .resp s b =>
      if s = expected then ⟨s, b, i + 1⟩
      else if 400 ≤ s ∧ s ≤ 499 then ⟨s, b, i + 1⟩
      else if 500 ≤ s ∧ s ≤ 599 then sendLoop outcomes expected (i + 1) fuel ⟨s, b, none⟩
      else sendLoop outcomes expected (i + 1) fuel ⟨st.status, b, none⟩

/-- `SendHTTPRequest` (util.go lines 82-158).  `maxRetries` is a Go `int`; the loop body
runs `max maxRetries 0` times. -/
def SendHTTPRequest (outcomes : Nat → Outcome) (expected maxRetries : Int) : SendResult :=
  sendLoop outcomes expected 0 maxRetries.toNat ⟨0, "", none⟩

/-- An outcome on which the loop returns immediately: a response whose status equals the
expected one, or one in `[400, 499]`. -/
def Exits (expected : Int) (o : Outcome) : Prop :=
  match o with
  | .err _ => False
  | .resp s _ => s = expected ∨ (400 ≤ s ∧ s ≤ 499)

instance (e : Int) (o : Outcome) : Decidable (Exits e o) :=
  match o with
  | .err _ => isFalse fun h => h
  | .resp s _ => inferInstanceAs (Decidable (s = e ∨ (400 ≤ s ∧ s ≤ 499)))

/-- Effect of one non-exiting attempt on the loop state: a transport failure sets `err`;
a 5xx response saves its status; any read response overwrites `body` and clears `err`. -/
def sendStep (st : SendState) : Outcome → SendState
  | .err m => { st with errMsg := some m }
  | .resp s b => if 500 ≤ s ∧ s ≤ 599 then ⟨s, b, none⟩ else ⟨st.status, b, none⟩

/-- Iterated `sendStep` starting at attempt `i`, for `d` attempts. -/
def iterState (outcomes : Nat → Outcome) : Nat → Nat → SendState → SendState
  | _, 0, st => st
  | i, d + 1, st => iterState outcomes (i + 1) d (sendStep st (outcomes i))

/-- Status component of the state folded over a window of outcomes: the last observed
5xx status (initial value 0 when none was observed). -/
def stepStatus (acc : Int) : Outcome → Int
  | .resp s _ => if 500 ≤ s ∧ s ≤ 599 then s else acc
  | .err _ => acc

/-- Body component: the body of the last response that was read. -/
def stepBody (acc : String) : Outcome → String
  | .resp _ b => b
  | .err _ => acc

/-- Error component: the transport error of the last attempt, if it failed. -/
def stepErr (_ : Option String) : Outcome → Option String
  | .err m => some m
  | .resp _ _ => none

/-- The first `n` outcomes. -/
def window (outcomes : Nat → Outcome) (n : Nat) : List Outcome :=
  (List.range n).map outcomes

/-- Last 5xx status observed in a window of outcomes, 0 if none. -/
def last5xx (w : List Outcome) : Int := w.foldl stepStatus 0

/-- Body of the last response in a window of outcomes, "" if none. -/
def lastBody (w : List Outcome) : String := w.foldl stepBody ""

/-- Error message of the last outcome, when it is a transport failure. -/
def lastErr (w : List Outcome) : Option String := w.foldl stepErr none

theorem sendStep_components (st : SendState) (o : Outcome) :
    sendStep st o =
      ⟨stepStatus st.status o, stepBody st.body o, stepErr st.errMsg o⟩ := by
  cases o with
  | err m => rfl
  | resp s b =>
    by_cases h5 : 500 ≤ s ∧ s ≤ 599 <;> simp [sendStep, stepStatus, stepBody, stepErr, h5]

/-- A non-exiting attempt advances the loop by one `sendStep`. -/
theorem sendLoop_skip (outcomes : Nat → Outcome) (e : Int) (i fuel : Nat) (st : SendState)
    (h : ¬ Exits e (outcomes i)) :
    sendLoop outcomes e i (fuel + 1) st =
      sendLoop outcomes e (i + 1) fuel (sendStep st (outcomes i)) := by
  cases ho : outcomes i with
  | err m => simp [sendLoop, ho, sendStep]
  | resp s b =>
    rw [ho] at h
    have hne : ¬ s = e := fun hs => h (Or.inl hs)
    have h4 : ¬ (400 ≤ s ∧ s ≤ 499) := fun hk => h (Or.inr hk)
    by_cases h5 : 500 ≤ s ∧ s ≤ 599 <;> simp [sendLoop, ho, hne, h4, h5, sendStep]

/-- An exiting attempt returns its response and stops. -/
theorem sendLoop_exit (outcomes : Nat → Outcome) (e : Int) (i fuel : Nat) (st : SendState)
    (s : Int) (b : String) (ho : outcomes i = .resp s b) (hex : Exits e (outcomes i)) :
    sendLoop outcomes e i (fuel + 1) st = ⟨s, b, i + 1⟩ := by
  rw [ho] at hex
  by_cases hs : s = e
  · simp [sendLoop, ho, hs]
  · rcases hex with hs' | h4
    · exact absurd hs' hs
    · simp [sendLoop, ho, hs, h4]

/-- A block of `d` non-exiting attempts advances the loop by `d` iterated steps. -/
theorem sendLoop_skip_many (outcomes : Nat → Outcome) (e : Int) :
    ∀ (d i rest : Nat) (st : SendState),
      (∀ j, i ≤ j → j < i + d → ¬ Exits e (outcomes j)) →
      sendLoop outcomes e i (d + rest) st =
        sendLoop outcomes e (i + d) rest (iterState outcomes i d st) := by
  intro d
  induction d with
  | zero => intro i rest st _; simp [iterState]
  | succ d ih =>
    intro i rest st h
    have h0 : ¬ Exits e (outcomes i) := h i (le_refl i) (by omega)
    have hshape : d + 1 + rest = (d + rest) + 1 := by omega
    rw [hshape, sendLoop_skip outcomes e i (d + rest) st h0,
      ih (i + 1) rest (sendStep st (outcomes i)) (fun j hj1 hj2 => h j (by omega) (by omega))]
    have hidx : i + 1 + d = i + (d + 1) := by omega
    rw [hidx]
    rfl

/-- The iterated step state is the componentwise fold over the window of outcomes. -/
theorem iterState_components (outcomes : Nat → Outcome) :
    ∀ (d i : Nat) (st : SendState),
      iterState outcomes i d st =
        ⟨((List.range d).map fun k => outcomes (i + k)).foldl stepStatus st.status,
         ((List.range d).map fun k => outcomes (i + k)).foldl stepBody st.body,
         ((List.range d).map fun k => outcomes (i + k)).foldl stepErr st.errMsg⟩ := by
  intro d
  induction d with
  | zero => intro i st; simp [iterState]
  | succ d ih =>
    intro i st
    have hwin : ((List.range (d + 1)).map fun k => outcomes (i + k)) =
        outcomes i :: ((List.range d).map fun k => outcomes ((i + 1) + k)) := by
      rw [List.range_succ_eq_map, List.map_cons, List.map_map]
      refine congrArg₂ _ (by rw [Nat.add_zero]) ?_
      refine List.map_congr_left fun k _ => ?_
      simp only [Function.comp]
      congr 1
      omega
    rw [hwin]
    show iterState outcomes (i + 1) d (sendStep st (outcomes i)) = _
    rw [ih (i + 1) (sendStep st (outcomes i)), sendStep_components]
    rfl

/-- Outcome sequence `[500, 500, 200]` (every later attempt would also return 200). -/
def exRetryThenOk : Nat → Outcome :=
  fun n => if n < 2 then .resp 500 "unavailable" else .resp 200 "ok"

/-- Outcome sequence `[404, 404, ...]`. -/
def exNotFound : Nat → Outcome := fun _ => .resp 404 "missing"

/-- A response with status 302 and body `x`, then a transport failure `boom`. -/
def exRespThenErr : Nat → Outcome :=
  fun n => if n = 0 then .resp 302 "x" else .err "boom"

/-- C3 counterexample: with outcomes `[302-response with body x, transport error boom]`,
`expectedStatus = 200` and `maxAttempts = 2`, the call exhausts both attempts and
returns status `0` — the no-response marker — although a response was received, and the
body `boom` — the transport error text — which is not the last body read (`x`).  This
contradicts the claim that after exhaustion the result is the last observed 5xx status
(or the marker only if no response was ever received) together with the last body
read. -/
theorem sendHTTPRequest_claim_counterexample :
    SendHTTPRequest exRespThenErr 200 2 = ⟨0, "boom", 2⟩
    ∧ exRespThenErr 0 = .resp 302 "x"
    ∧ ¬ (("boom" : String) = "x")
    ∧ ¬ ((0 : Int) = 302) :=
  ⟨rfl, rfl, by decide, by decide⟩

/-- C3 amended: (1) on the first attempt whose response status equals `expectedStatus`
or lies in `[400,499]`, the call returns that status and body immediately, after exactly
`i+1` attempts; (2) if no attempt exits, all `maxAttempts` are used and the call returns
the last observed 5xx status — or `0`, the initialized marker, if no 5xx response was
observed (even when other responses were received) — with the last transport error text
if the final attempt failed at the transport level, else the last body read; (3) the
responses `[500, 500, 200]` with `expectedStatus = 200`, `maxAttempts = 3` yield
`(200, body)` after exactly 3 attempts, and `[404]` with `maxAttempts = 5` yields
`(404, body)` after exactly 1 attempt. -/
theorem sendHTTPRequest_spec :
    (∀ (o : Nat → Outcome) (e maxR : Int) (i : Nat) (s : Int) (b : String),
        i < maxR.toNat → (∀ j, j < i → ¬ Exits e (o j)) → o i = .resp s b →
        Exits e (o i) → SendHTTPRequest o e maxR = ⟨s, b, i + 1⟩)
    ∧ (∀ (o : Nat → Outcome) (e maxR : Int),
        (∀ j, j < maxR.toNat → ¬ Exits e (o j)) →
        SendHTTPRequest o e maxR =
          ⟨last5xx (window o maxR.toNat),
           (match lastErr (window o maxR.toNat) with
            | some m => m
            | none => lastBody (window o maxR.toNat)),
           maxR.toNat⟩)
    ∧ SendHTTPRequest exRetryThenOk 200 3 = ⟨200, "ok", 3⟩
    ∧ SendHTTPRequest exNotFound 200 5 = ⟨404, "missing", 1⟩ := by
  refine ⟨?_, ?_, rfl, rfl⟩
  · intro o e maxR i s b hi hpre ho hex
    unfold SendHTTPRequest
    obtain ⟨rest, hrest⟩ : ∃ rest, maxR.toNat = i + (rest + 1) :=
      ⟨maxR.toNat - i - 1, by omega⟩
    rw [hrest,
      sendLoop_skip_many o e i 0 (rest + 1) ⟨0, "", none⟩ (fun j _ hj2 => hpre j (by omega))]
    simp only [Nat.zero_add]
    exact sendLoop_exit o e i rest _ s b ho hex
  · intro o e maxR hall
    unfold SendHTTPRequest
    have hsm := sendLoop_skip_many o e maxR.toNat 0 0 ⟨0, "", none⟩
      (fun j _ hj2 => hall j (by omega))
    simp only [Nat.add_zero, Nat.zero_add] at hsm
    rw [hsm]
    have hw : ((List.range maxR.toNat).map fun k => o (0 + k)) = window o maxR.toNat := by
      unfold window
      exact List.map_congr_left fun k _ => by rw [Nat.zero_add]
    show sendFinish (iterState o 0 maxR.toNat ⟨0, "", none⟩) maxR.toNat = _
    rw [iterState_components, hw]
    simp only [last5xx, lastBody, lastErr]
    cases hE : List.foldl stepErr none (window o maxR.toNat) <;> simp [sendFinish, hE]

/-- Witness for the amended C3: the `[404]` sequence exits on the first attempt. -/
theorem sendHTTPRequest_spec_witness :
    SendHTTPRequest exNotFound 200 5 = ⟨404, "missing", 1⟩ :=
  sendHTTPRequest_spec.1 exNotFound 200 5 0 404 "missing" (by decide)
    (fun j hj => absurd hj (Nat.not_lt_zero j)) rfl (by decide)

/-! ## Callback executor (src/task/task.go, `DoCallback`, lines 227-290)

Pure model of `DoCallback`: `currentMinute` is `util.GetUnixMinute()` at entry,
`executedAt` is `time.Now().Unix()` read after the transport returns, `outcomes` is the
transport behavior.  The observable effects are the sequence of tasks passed to
`updateTask` (in order) and the number of transport attempts started. -/

/-- Observable effects of one `DoCallback` run. -/
structure DoCallbackResult where
  updates : List Task
  attempts : Nat
  deriving Repr, DecidableEq

/-- `(Task).DoCallback`.  The trigger timestamp is re-parsed with its error discarded
(`triggerAt, _ := strconv.Atoi(...)`); the max-delay guard returns before any update or
transport call; otherwise the task is persisted as `running`, the transport is invoked,
and the task is persisted again with the outcome recorded. -/
def DoCallback (currentMinute executedAt : Int) (outcomes : Nat → Outcome) (t : Task) :
    DoCallbackResult :=
  if currentMinute > i64add (goAtoiVal t.TriggerAt) (i64mul t.MaxDelay 60) then ⟨[], 0⟩
  else
    let t1 := { t with TaskState := Running }
    let r := SendHTTPRequest outcomes t.ExpectedHTTPStatus t.Retry
    let t2 := { t1 with
      TaskState := if r.status = t.ExpectedHTTPStatus then Successful else Failed,
      ExecutedAt := toString executedAt,
      ResponseStatus := r.status,
      ResponseBody := if r.body.length < maxResponseBytes then r.body
                      else String.mk (r.body.data.take maxResponseBytes) }
    ⟨[t1, t2], r.attempts⟩

/-- A task at the max-delay boundary: `trigger_at = 0`, `max_delay = 10`. -/
def exTaskBoundary : Task :=
  { TriggerAt := "0", Tag := "t0", CallbackEndpoint := "http://localhost/cb",
    CallbackMethod := "GET", Retry := 1, ExpectedHTTPStatus := 200, MaxDelay := 10,
    TaskState := Pending }

/-- Transport that always answers 200. -/
def exOk200 : Nat → Outcome := fun _ => .resp 200 "ok"

/-- C2 counterexample: at `currentMinute = 600` the executor starts exactly
`max_delay` minutes (`10*60` seconds) after `trigger_at = 0` — "max_delay minutes or
more" in the claim's words — yet `DoCallback` is not abandoned: it dispatches to the
transport (one attempt is made) and writes updates.  The code's guard is strict
(`currentMinute > trigger_at + max_delay*60`). -/
theorem doCallback_maxDelay_counterexample :
    (600 : Int) ≥ goAtoiVal exTaskBoundary.TriggerAt + exTaskBoundary.MaxDelay * 60
    ∧ (DoCallback 600 600 exOk200 exTaskBoundary).attempts = 1
    ∧ ¬ ((DoCallback 600 600 exOk200 exTaskBoundary).updates = []) :=
  ⟨by decide, rfl, by decide⟩

/-- C2 amended: `DoCallback` abandons the task — no update call, no transport attempt —
exactly when the executor starts strictly more than `max_delay` minutes after
`trigger_at` (`currentMinute > trigger_at + max_delay*60`, in wrapped `int64`
arithmetic); in particular a task with `trigger_at = now - 3600` and `max_delay = 10` is
never dispatched to the transport. -/
theorem doCallback_maxDelay_spec :
    (∀ (cm ex : Int) (o : Nat → Outcome) (t : Task),
        cm > i64add (goAtoiVal t.TriggerAt) (i64mul t.MaxDelay 60) →
        DoCallback cm ex o t = ⟨[], 0⟩)
    ∧ (∀ (cm ex : Int) (o : Nat → Outcome) (t : Task),
        goAtoiVal t.TriggerAt = cm - 3600 → t.MaxDelay = 10 →
        -(2 ^ 63) + 3600 ≤ cm → cm < 2 ^ 63 →
        DoCallback cm ex o t = ⟨[], 0⟩) := by
  constructor
  · intro cm ex o t h
    unfold DoCallback
    rw [if_pos h]
  · intro cm ex o t htrig hdelay hlo hhi
    have h600 : i64mul (t.MaxDelay) 60 = 600 := by rw [hdelay]; decide
    have hguard : i64add (goAtoiVal t.TriggerAt) (i64mul t.MaxDelay 60) = cm - 3000 := by
      rw [htrig, h600]
      unfold i64add
      have harg : cm - 3600 + 600 = cm - 3000 := by ring
      rw [harg]
      exact i64wrap_eq_self (by omega) (by omega)
    have : cm > i64add (goAtoiVal t.TriggerAt) (i64mul t.MaxDelay 60) := by
      rw [hguard]; omega
    unfold DoCallback
    rw [if_pos this]

/-- A task whose trigger time is one hour in the past relative to minute 3600. -/
def exTaskLate : Task :=
  { TriggerAt := "0", Tag := "t0", CallbackEndpoint := "http://localhost/cb",
    CallbackMethod := "GET", Retry := 1, ExpectedHTTPStatus := 200, MaxDelay := 10,
    TaskState := Pending }

/-- Witness for the amended C2: `trigger_at = 0`, evaluated at minute 3600. -/
theorem doCallback_maxDelay_spec_witness :
    DoCallback 3600 3600 exOk200 exTaskLate = ⟨[], 0⟩ :=
  doCallback_maxDelay_spec.2 3600 3600 exOk200 exTaskLate (by decide) rfl (by decide)
    (by decide)

/-- C4: whenever `DoCallback` proceeds past the max-delay check, the task it finally
persists has state `successful` if the transport's final status equals
`ExpectedHTTPStatus` and `failed` otherwise, `ResponseStatus` equal to that status,
`ExecutedAt` set to the execution time, and `ResponseBody` equal to the returned body
truncated to at most 256 bytes. -/
theorem doCallback_result_spec (cm ex : Int) (o : Nat → Outcome) (t : Task)
    (h : ¬ cm > i64add (goAtoiVal t.TriggerAt) (i64mul t.MaxDelay 60)) :
    (DoCallback cm ex o t).updates ≠ []
    ∧ ((SendHTTPRequest o t.ExpectedHTTPStatus t.Retry).status = t.ExpectedHTTPStatus →
        ((DoCallback cm ex o t).updates.getLastD t).TaskState = Successful)
    ∧ (¬ (SendHTTPRequest o t.ExpectedHTTPStatus t.Retry).status = t.ExpectedHTTPStatus →
        ((DoCallback cm ex o t).updates.getLastD t).TaskState = Failed)
    ∧ ((DoCallback cm ex o t).updates.getLastD t).ResponseStatus =
        (SendHTTPRequest o t.ExpectedHTTPStatus t.Retry).status
    ∧ ((DoCallback cm ex o t).updates.getLastD t).ExecutedAt = toString ex
    ∧ ((DoCallback cm ex o t).updates.getLastD t).ResponseBody.data =
        (SendHTTPRequest o t.ExpectedHTTPStatus t.Retry).body.data.take maxResponseBytes
    ∧ ((DoCallback cm ex o t).updates.getLastD t).ResponseBody.length ≤
        maxResponseBytes := by
  unfold DoCallback
  rw [if_neg h]
  dsimp only
  refine ⟨by simp, ?_, ?_, rfl, rfl, ?_, ?_⟩
  · intro hs
    simp [List.getLastD, hs]
  · intro hs
    simp [List.getLastD, hs]
  · by_cases hlen : (SendHTTPRequest o t.ExpectedHTTPStatus t.Retry).body.length <
        maxResponseBytes
    · rw [if_pos hlen]
      have hle : (SendHTTPRequest o t.ExpectedHTTPStatus t.Retry).body.data.length ≤
          maxResponseBytes := le_of_lt hlen
      rw [List.take_of_length_le hle]
      rfl
    · rw [if_neg hlen]
      rfl
  · by_cases hlen : (SendHTTPRequest o t.ExpectedHTTPStatus t.Retry).body.length <
        maxResponseBytes
    · rw [if_pos hlen]
      exact le_of_lt hlen
    · rw [if_neg hlen]
      show ((SendHTTPRequest o t.ExpectedHTTPStatus t.Retry).body.data.take
        maxResponseBytes).length ≤ maxResponseBytes
      rw [List.length_take]
      omega

/-- Transport that always answers 500. -/
def exServerErr : Nat → Outcome := fun _ => .resp 500 "internal error"

/-- A freshly due task: `trigger_at = 0` evaluated at minute 0. -/
def exTaskFresh : Task :=
  { TriggerAt := "0", Tag := "t0", CallbackEndpoint := "http://localhost/cb",
    CallbackMethod := "GET", Retry := 1, ExpectedHTTPStatus := 200, MaxDelay := 10,
    TaskState := Pending }

/-- Witness for C4 at a concrete failing callback. -/
theorem doCallback_result_spec_witness :
    (DoCallback 0 7 exServerErr exTaskFresh).updates ≠ []
    ∧ ((SendHTTPRequest exServerErr exTaskFresh.ExpectedHTTPStatus
          exTaskFresh.Retry).status = exTaskFresh.ExpectedHTTPStatus →
        ((DoCallback 0 7 exServerErr exTaskFresh).updates.getLastD
          exTaskFresh).TaskState = Successful)
    ∧ (¬ (SendHTTPRequest exServerErr exTaskFresh.ExpectedHTTPStatus
          exTaskFresh.Retry).status = exTaskFresh.ExpectedHTTPStatus →
        ((DoCallback 0 7 exServerErr exTaskFresh).updates.getLastD
          exTaskFresh).TaskState = Failed)
    ∧ ((DoCallback 0 7 exServerErr exTaskFresh).updates.getLastD
        exTaskFresh).ResponseStatus =
        (SendHTTPRequest exServerErr exTaskFresh.ExpectedHTTPStatus
          exTaskFresh.Retry).status
    ∧ ((DoCallback 0 7 exServerErr exTaskFresh).updates.getLastD
        exTaskFresh).ExecutedAt = toString (7 : Int)
    ∧ ((DoCallback 0 7 exServerErr exTaskFresh).updates.getLastD
        exTaskFresh).ResponseBody.data =
        (SendHTTPRequest exServerErr exTaskFresh.ExpectedHTTPStatus
          exTaskFresh.Retry).body.data.take maxResponseBytes
    ∧ ((DoCallback 0 7 exServerErr exTaskFresh).updates.getLastD
        exTaskFresh).ResponseBody.length ≤ maxResponseBytes :=
  doCallback_result_spec 0 7 exServerErr exTaskFresh (by decide)

/-! ## Reschedule (src/app/app.go, `Reschedule`, lines 224-274)

The store is abstracted by the candidate set the function retrieves before writing: the
single-key branch yields one page holding one task, the by-name branch yields the pages
of the paginated secondary-index query.  The value returned below is both the list the
Go function returns and, in order, the exact sequence of tasks passed to `UpsertTask`. -/

/-- The selection predicate of the collection loops:
`t.TaskState == task.Failed || all`. -/
def selectedB (all : Bool) (t : Task) : Bool := t.TaskState == Failed || all

/-- One page of the collection loop: append the candidates that are failed (or all of
them when `all` is set) to the accumulator. -/
def rescheduleFilterPage (all : Bool) (acc : List Task) (page : List Task) : List Task :=
  page.foldl (fun ts t => if selectedB all t then ts ++ [t] else ts) acc

/-- `Reschedule` over the retrieved candidate pages: collect the selected tasks, then
overwrite `trigger_at` on each and upsert it. -/
def Reschedule (pages : List (List Task)) (triggerAt : String) (all : Bool) : List Task :=
  let tasks := pages.foldl (rescheduleFilterPage all) []
  tasks.map fun t => { t with TriggerAt := triggerAt }

theorem rescheduleFilterPage_eq (all : Bool) :
    ∀ (page acc : List Task),
      rescheduleFilterPage all acc page = acc ++ page.filter (selectedB all) := by
  intro page
  induction page with
  | nil => intro acc; simp [rescheduleFilterPage]
  | cons p ps ih =>
    intro acc
    by_cases hp : selectedB all p
    · show (ps.foldl _ (if selectedB all p then acc ++ [p] else acc)) = _
      rw [if_pos hp]
      have := ih (acc ++ [p])
      rw [show (ps.foldl (fun ts t => if selectedB all t then ts ++ [t] else ts)
          (acc ++ [p])) = rescheduleFilterPage all (acc ++ [p]) ps from rfl, this]
      simp [List.filter_cons, hp]
    · show (ps.foldl _ (if selectedB all p then acc ++ [p] else acc)) = _
      rw [if_neg hp]
      have := ih acc
      rw [show (ps.foldl (fun ts t => if selectedB all t then ts ++ [t] else ts) acc) =
          rescheduleFilterPage all acc ps from rfl, this]
      simp [List.filter_cons, hp]

theorem rescheduleCollect_eq (all : Bool) :
    ∀ (pages : List (List Task)) (acc : List Task),
      pages.foldl (rescheduleFilterPage all) acc =
        acc ++ (pages.flatten).filter (selectedB all) := by
  intro pages
  induction pages with
  | nil => intro acc; simp
  | cons p ps ih =>
    intro acc
    show ps.foldl (rescheduleFilterPage all) (rescheduleFilterPage all acc p) = _
    rw [ih (rescheduleFilterPage all acc p), rescheduleFilterPage_eq]
    simp [List.flatten, List.filter_append, List.append_assoc]

/-- The writes of `Reschedule` are exactly the selected candidates, in order, with
`trigger_at` overwritten. -/
theorem Reschedule_eq (pages : List (List Task)) (triggerAt : String) (all : Bool) :
    Reschedule pages triggerAt all =
      ((pages.flatten).filter (selectedB all)).map fun t => { t with TriggerAt := triggerAt } := by
  unfold Reschedule
  rw [rescheduleCollect_eq]
  simp

/-- Stored occurrence of tag `t0` that previously failed. -/
def exFail1 : Task :=
  { TriggerAt := "600", Tag := "t0+aaaa", CallbackEndpoint := "http://localhost/cb",
    CallbackMethod := "GET", Retry := 1, ExpectedHTTPStatus := 200, MaxDelay := 10,
    TaskState := Failed }

/-- Stored occurrence of tag `t0` that succeeded. -/
def exSucc : Task := { exFail1 with Tag := "t0+bbbb", TaskState := Successful }

/-- Another stored occurrence of tag `t0` that previously failed. -/
def exFail2 : Task := { exFail1 with Tag := "t0+cccc", TaskState := Failed }

/-- C5: `Reschedule` selects exactly the failed candidates when `all = false` and every
candidate when `all = true`; each selected task is re-persisted with `trigger_at`
overwritten and every other field (including the identity suffix carried in the tag)
unchanged, and nothing else is written.  For candidates with states
`[failed, successful, failed]`, `all = false` rewrites exactly the two failed entries
and `all = true` rewrites all three. -/
theorem reschedule_spec :
    (∀ (pages : List (List Task)) (newT : String) (all : Bool),
        Reschedule pages newT all =
          ((pages.flatten).filter (selectedB all)).map fun t => { t with TriggerAt := newT })
    ∧ (∀ (all : Bool) (t : Task),
        selectedB all t = true ↔ (t.TaskState = Failed ∨ all = true))
    ∧ (∀ (newT : String) (t : Task),
        ({ t with TriggerAt := newT } : Task).Tag = t.Tag
        ∧ ({ t with TriggerAt := newT } : Task).Payload = t.Payload
        ∧ ({ t with TriggerAt := newT } : Task).CallbackEndpoint = t.CallbackEndpoint
        ∧ ({ t with TriggerAt := newT } : Task).CallbackMethod = t.CallbackMethod
        ∧ ({ t with TriggerAt := newT } : Task).Retry = t.Retry
        ∧ ({ t with TriggerAt := newT } : Task).ExpectedHTTPStatus = t.ExpectedHTTPStatus
        ∧ ({ t with TriggerAt := newT } : Task).MaxDelay = t.MaxDelay
        ∧ ({ t with TriggerAt := newT } : Task).TaskState = t.TaskState
        ∧ ({ t with TriggerAt := newT } : Task).ResponseBody = t.ResponseBody
        ∧ ({ t with TriggerAt := newT } : Task).ResponseStatus = t.ResponseStatus
        ∧ ({ t with TriggerAt := newT } : Task).ExecutedAt = t.ExecutedAt
        ∧ ({ t with TriggerAt := newT } : Task).TriggerAt = newT)
    ∧ Reschedule [[exFail1, exSucc, exFail2]] "900" false =
        [{ exFail1 with TriggerAt := "900" }, { exFail2 with TriggerAt := "900" }]
    ∧ Reschedule [[exFail1, exSucc, exFail2]] "900" true =
        [{ exFail1 with TriggerAt := "900" }, { exSucc with TriggerAt := "900" },
         { exFail2 with TriggerAt := "900" }] := by
  refine ⟨Reschedule_eq, ?_, ?_, by decide, by decide⟩
  · intro all t
    simp [selectedB]
  · intro newT t
    refine ⟨rfl, rfl, rfl, rfl, rfl, rfl, rfl, rfl, rfl, rfl, rfl, rfl⟩

/-- Witness for C5 at a concrete candidate set. -/
theorem reschedule_spec_witness :
    Reschedule [[exSucc], [exFail1]] "960" false =
      (([[exSucc], [exFail1]].flatten).filter (selectedB false)).map
        fun t => { t with TriggerAt := "960" } :=
  reschedule_spec.1 [[exSucc], [exFail1]] "960" false

/-- The first effect of `setDefaults` is to reset the state to pending; no later branch
touches it. -/
theorem setDefaults_TaskState (t : Task) : (setDefaults t).TaskState = Pending := by
  unfold setDefaults
  dsimp only
  by_cases h1 : t.CallbackMethod = "" <;> by_cases h2 : t.Retry = 0 <;>
    by_cases h3 : t.ExpectedHTTPStatus = 0 <;> by_cases h4 : t.MaxDelay = 0 <;>
    simp [h1, h2, h3, h4]

/-- C9: no operation ever assigns the state `skipped`: every task `DoCallback` passes to
the update function is `running`, `successful` or `failed` — never `skipped` — and on
the max-delay abandonment path `DoCallback` returns before any update or transport
attempt, so the stored record is not modified there (a task abandoned while `pending`
stays `pending`); `setDefaults` resets the state to `pending`, and `Reschedule` writes
only tasks whose state is copied from an existing candidate. -/
theorem no_skipped_spec :
    (∀ (cm ex : Int) (o : Nat → Outcome) (t : Task),
        (∀ u ∈ (DoCallback cm ex o t).updates, ¬ u.TaskState = Skipped)
        ∧ (cm > i64add (goAtoiVal t.TriggerAt) (i64mul t.MaxDelay 60) →
            (DoCallback cm ex o t).updates = [] ∧ (DoCallback cm ex o t).attempts = 0))
    ∧ (∀ t : Task, ¬ (setDefaults t).TaskState = Skipped)
    ∧ (∀ (pages : List (List Task)) (newT : String) (all : Bool),
        ∀ u ∈ Reschedule pages newT all, ∃ c ∈ pages.flatten, u.TaskState = c.TaskState) := by
  refine ⟨?_, ?_, ?_⟩
  · intro cm ex o t
    constructor
    · intro u hu
      by_cases hg : cm > i64add (goAtoiVal t.TriggerAt) (i64mul t.MaxDelay 60)
      · unfold DoCallback at hu
        rw [if_pos hg] at hu
        simp at hu
      · unfold DoCallback at hu
        rw [if_neg hg] at hu
        dsimp only at hu
        rcases List.mem_cons.mp hu with rfl | hu2
        · simp [Running, Skipped]
        · rcases List.mem_cons.mp hu2 with rfl | hu3
          · by_cases hs : (SendHTTPRequest o t.ExpectedHTTPStatus t.Retry).status =
                t.ExpectedHTTPStatus
            · simp [hs, Successful, Skipped]
            · simp [hs, Failed, Skipped]
          · simp at hu3
    · intro hg
      unfold DoCallback
      rw [if_pos hg]
      exact ⟨rfl, rfl⟩
  · intro t
    rw [setDefaults_TaskState]
    decide
  · intro pages newT all u hu
    rw [Reschedule_eq] at hu
    obtain ⟨c, hc, rfl⟩ := List.mem_map.mp hu
    exact ⟨c, List.mem_of_mem_filter hc, rfl⟩

/-- Witness for C9 at a concrete abandoned task (one hour late, `max_delay = 10`). -/
theorem no_skipped_spec_witness :
    (DoCallback 4800 4800 exOk200 exTaskLate).updates = []
    ∧ (DoCallback 4800 4800 exOk200 exTaskLate).attempts = 0 :=
  (no_skipped_spec.1 4800 4800 exOk200 exTaskLate).2 (by decide)

end Callme
